import Mathlib

/-
Verification of the cross-file symbol resolution engine of the
componentsjs-generator repository (lib/parse/ClassLoader.ts).

The embedding below follows the TypeScript source: the AST shapes consumed by
ClassLoader.getClassElements are modelled as inductive types, JavaScript
records (string-keyed objects with last-write-wins assignment) are modelled as
association lists with prepend-insert and first-match lookup, and the
recursive ClassLoader.loadClassDeclaration is modelled with an explicit fuel
parameter; running out of fuel is kept distinct from thrown errors, so that
the fueled function diverging for every fuel value corresponds to the
unbounded recursion of the original.
-/

namespace Componentsjs

/-- A source location, mirroring loc.start of an estree node. -/
structure SourceLoc where
  line : Nat
  column : Nat
deriving DecidableEq

/-- An uninterpreted type node, as stored for generic-parameter constraints. -/
structure TypeNode where
  ident : String
deriving DecidableEq

/-- The expression shapes that getSuperClassName distinguishes:
bare identifiers, member expressions, and everything else. -/
inductive Expression where
  | identifier (name : String)
  | memberExpression (object : Expression) (property : Expression)
  | otherExpression
deriving DecidableEq

/-- An expression together with its source location. -/
structure LocatedExpression where
  expr : Expression
  loc : SourceLoc
deriving DecidableEq

/-- A type parameter: its name and optional constraint (the extends bound). -/
structure TypeParam where
  name : String
  constraint : Option TypeNode
deriving DecidableEq

/-- A class declaration node: optional name, abstract modifier, optional
superclass expression, optional type-parameter list, location, and the
documentation comment text the AST provider attaches to the node. -/
structure ClassDeclaration where
  id : Option String
  abstract : Bool
  superClass : Option LocatedExpression
  typeParameters : Option (List TypeParam)
  loc : SourceLoc
  comment : Option String
deriving DecidableEq

/-- The node-type tag of an interface heritage entry, as tested by
ClassLoader.getSuperInterfaceNames. -/
inductive HeritageKind where
  | tsInterfaceHeritage
  | otherHeritage
deriving DecidableEq

/-- One entry of an interface extends list. -/
structure HeritageEntry where
  kind : HeritageKind
  expression : Expression
  loc : SourceLoc
deriving DecidableEq

/-- An interface declaration node. The extends list is optional, mirroring
the fallback to the empty list in the source. -/
structure TSInterfaceDeclaration where
  id : String
  extendsList : Option (List HeritageEntry)
  typeParameters : Option (List TypeParam)
  loc : SourceLoc
  comment : Option String
deriving DecidableEq

/-- The source field of an export or import statement: the code only accepts
literal nodes whose value is a string. -/
inductive SourceValue where
  | stringLiteral (value : String)
  | nonStringValue
deriving DecidableEq

/-- The declaration attached to an ExportNamedDeclaration statement. -/
inductive DeclarationNode where
  | classDecl (d : ClassDeclaration)
  | interfaceDecl (d : TSInterfaceDeclaration)
  | otherDecl
deriving DecidableEq

/-- An import specifier: only the named form (ImportSpecifier) is recorded by
getClassElements; default and namespace specifiers are other node types. -/
inductive ImportSpec where
  | importSpecifier (localName : String) (importedName : String)
  | importDefaultSpecifier (localName : String)
  | importNamespaceSpecifier (localName : String)
deriving DecidableEq

/-- An export specifier, carrying specifier.local.name and
specifier.exported.name. -/
structure ExportSpecifier where
  localName : String
  exportedName : String
deriving DecidableEq

/-- The top-level statement shapes distinguished by getClassElements. -/
inductive Statement where
  | exportNamedDeclaration (declaration : Option DeclarationNode)
      (specifiers : List ExportSpecifier) (source : Option SourceValue)
  | exportAllDeclaration (source : Option SourceValue)
  | classDeclaration (d : ClassDeclaration)
  | interfaceDeclaration (d : TSInterfaceDeclaration)
  | importDeclaration (specifiers : List ImportSpec) (source : SourceValue)
  | otherStatement
deriving DecidableEq

/-- A JavaScript object used as a string-keyed record, modelled as an
association list: assignment prepends, lookup takes the first match, so the
most recent assignment to a key wins, as in JavaScript. -/
abbrev JSRecord (α : Type) := List (String × α)

/-- Lookup of a key, returning the value of the most recent assignment. -/
def recLookup {α : Type} (m : JSRecord α) (k : String) : Option α :=
  (m.find? (fun p => p.1 == k)).map Prod.snd

/-- Record assignment. -/
def recInsert {α : Type} (m : JSRecord α) (k : String) (v : α) : JSRecord α :=
  (k, v) :: m

/-- Splitting of a character list at a separator character. -/
def splitChars (sep : Char) : List Char → List (List Char)
  | [] => [[]]
  | a :: rest =>
    if a = sep then [] :: splitChars sep rest
    else
      match splitChars sep rest with
      | [] => [[a]]
      | seg :: segs => (a :: seg) :: segs

/-- The slash-separated segments of a path. -/
def splitPath (p : String) : List String :=
  (splitChars (Char.ofNat 47) p.data).map (fun cs => String.mk cs)

/-- Joining of path segments with slashes. -/
def joinSegments : List String → String
  | [] => ""
  | [s] => s
  | s :: rest => s ++ "/" ++ joinSegments rest

/-- Path.dirname for relative POSIX paths: everything before the last slash,
or a dot when there is no slash. -/
def pathDirname (p : String) : String :=
  let parts := splitPath p
  if parts.length ≤ 1 then "." else joinSegments parts.dropLast

/-- Segment normalization performed by Path.join: empty and dot segments are
dropped and a dot-dot segment pops the previous real segment. -/
def normalizeSegments (segs : List String) : List String :=
  segs.foldl
    (fun acc seg =>
      if seg = "" ∨ seg = "." then acc
      else if seg = ".." then
        match acc.getLast? with
        | some l => if l = ".." then acc ++ [seg] else acc.dropLast
        | none => acc ++ [seg]
      else acc ++ [seg])
    []

/-- Path.join of two relative POSIX paths. -/
def pathJoin (a : String) (b : String) : String :=
  match normalizeSegments (splitPath a ++ splitPath b) with
  | [] => "."
  | segs => joinSegments segs

/-- A class reference: the shape passed through recursive resolution,
{ localName, fileName }. -/
structure ClassReference where
  localName : String
  fileName : String
deriving DecidableEq

/-- The ClassElements record produced by ClassLoader.getClassElements. -/
structure ClassElements where
  exportedClasses : JSRecord ClassDeclaration
  exportedInterfaces : JSRecord TSInterfaceDeclaration
  exportedImportedElements : JSRecord ClassReference
  exportedImportedAll : List String
  exportedUnknowns : JSRecord String
  declaredClasses : JSRecord ClassDeclaration
  declaredInterfaces : JSRecord TSInterfaceDeclaration
  importedElements : JSRecord ClassReference
deriving DecidableEq

/-- The empty ClassElements record, as initialized at the top of
getClassElements. -/
def emptyClassElements : ClassElements :=
  ⟨[], [], [], [], [], [], [], []⟩

/-- The errors thrown by the embedded portion of ClassLoader, as structured
values carrying the data interpolated into the thrown message. -/
inductive LoadError where
  | malformedExport (fileName : String) (loc : SourceLoc)
  | namespacedSuperClass (fileName : String) (loc : SourceLoc)
  | unsupportedSuperClass (fileName : String) (loc : SourceLoc)
  | unsupportedSuperInterface (fileName : String) (loc : SourceLoc)
  | symbolNotFound (considerInterfaces : Bool) (localName : String) (fileName : String)
  | fileParseError (fileName : String)
deriving DecidableEq

/-- The file name and source location a located error message carries. -/
def errorContext : LoadError → Option (String × SourceLoc)
  | .malformedExport f l => some (f, l)
  | .namespacedSuperClass f l => some (f, l)
  | .unsupportedSuperClass f l => some (f, l)
  | .unsupportedSuperInterface f l => some (f, l)
  | _ => none

/-- The specifier loop of the reexport-with-source branch: each specifier
assigns exportedImportedElements at the exported name to the local name and
the resolved source file. -/
def insertExportedImported (fileName : String) (value : String)
    (specifiers : List ExportSpecifier) (m : JSRecord ClassReference) :
    JSRecord ClassReference :=
  specifiers.foldl
    (fun m s =>
      recInsert m s.exportedName ⟨s.localName, pathJoin (pathDirname fileName) value⟩)
    m

/-- The specifier loop of the sourceless export branch: each specifier
assigns exportedUnknowns at the exported name to the local name. -/
def insertExportedUnknowns (specifiers : List ExportSpecifier)
    (m : JSRecord String) : JSRecord String :=
  specifiers.foldl (fun m s => recInsert m s.exportedName s.localName) m

/-- The specifier loop of the import branch: only named import specifiers
are recorded, keyed by the local alias; default and namespace specifiers
are skipped. -/
def insertImported (fileName : String) (value : String)
    (specifiers : List ImportSpec) (m : JSRecord ClassReference) :
    JSRecord ClassReference :=
  specifiers.foldl
    (fun m s =>
      match s with
      | .importSpecifier localName importedName =>
        recInsert m localName ⟨importedName, pathJoin (pathDirname fileName) value⟩
      | _ => m)
    m

/-- One iteration of the statement loop of ClassLoader.getClassElements,
classifying a single top-level statement. -/
def getClassElementsStep (fileName : String) (acc : ClassElements) :
    Statement → Except LoadError ClassElements
  | .exportNamedDeclaration declaration specifiers source =>
    match declaration with
    | some (.classDecl d) =>
      match d.id with
      | none => .error (.malformedExport fileName d.loc)
      | some name =>
        .ok { acc with exportedClasses := recInsert acc.exportedClasses name d }
    | some (.interfaceDecl d) =>
      .ok { acc with exportedInterfaces := recInsert acc.exportedInterfaces d.id d }
    | _ =>
      match source with
      | some (.stringLiteral value) =>
        .ok { acc with exportedImportedElements := insertExportedImported fileName value specifiers acc.exportedImportedElements }
      | _ =>
        .ok { acc with exportedUnknowns := insertExportedUnknowns specifiers acc.exportedUnknowns }
  | .exportAllDeclaration source =>
    match source with
    | some (.stringLiteral value) =>
      .ok { acc with exportedImportedAll := acc.exportedImportedAll ++ [pathJoin (pathDirname fileName) value] }
    | _ => .ok acc
  | .classDeclaration d =>
    match d.id with
    | some name =>
      .ok { acc with declaredClasses := recInsert acc.declaredClasses name d }
    | none => .ok acc
  | .interfaceDeclaration d =>
    .ok { acc with declaredInterfaces := recInsert acc.declaredInterfaces d.id d }
  | .importDeclaration specifiers source =>
    match source with
    | .stringLiteral value =>
      .ok { acc with importedElements := insertImported fileName value specifiers acc.importedElements }
    | _ => .ok acc
  | .otherStatement => .ok acc

/-- The statement loop of getClassElements, threading the accumulated
ClassElements through the statements in order; the first thrown error
aborts the loop. -/
def foldStatements (fileName : String) (acc : ClassElements) :
    List Statement → Except LoadError ClassElements
  | [] => .ok acc
  | statement :: rest =>
    match getClassElementsStep fileName acc statement with
    | .error e => .error e
    | .ok acc2 => foldStatements fileName acc2 rest

/-- ClassLoader.getClassElements: classify all top-level statements of a
file into the ClassElements record. -/
def getClassElements (fileName : String) (ast : List Statement) :
    Except LoadError ClassElements :=
  foldStatements fileName emptyClassElements ast

/-- A class or interface declaration, the argument type of
ClassLoader.collectGenericTypes. -/
inductive ClassOrInterface where
  | cls (d : ClassDeclaration)
  | iface (d : TSInterfaceDeclaration)
deriving DecidableEq

/-- The typeParameters field of a class or interface declaration. -/
def typeParametersOf : ClassOrInterface → Option (List TypeParam)
  | .cls d => d.typeParameters
  | .iface d => d.typeParameters

/-- One entry of the GenericTypes record: an object with an optional type
field holding the constraint. -/
structure GenericEntry where
  type : Option TypeNode
deriving DecidableEq

/-- The GenericTypes record: generic-parameter name to entry. -/
abbrev GenericTypes := JSRecord GenericEntry

/-- ClassLoader.collectGenericTypes: one record assignment per parameter of
the type-parameter list, keyed by the parameter name, holding its
constraint. -/
def collectGenericTypes (classDeclaration : ClassOrInterface) : GenericTypes :=
  match typeParametersOf classDeclaration with
  | none => []
  | some params =>
    params.foldl (fun acc param => recInsert acc param.name ⟨param.constraint⟩) []

/-- ClassLoader.getSuperClassName: no superclass yields none, a bare
identifier yields its name, a member expression of two identifiers throws
the namespaced-superclass error, anything else throws the
could-not-interpret error; both errors carry file, line and column. -/
def getSuperClassName (declaration : ClassDeclaration) (fileName : String) :
    Except LoadError (Option String) :=
  match declaration.superClass with
  | none => .ok none
  | some superClass =>
    match superClass.expr with
    | .identifier name => .ok (some name)
    | .memberExpression (.identifier _) (.identifier _) =>
      .error (.namespacedSuperClass fileName superClass.loc)
    | _ => .error (.unsupportedSuperClass fileName superClass.loc)

/-- The per-entry body of the map inside ClassLoader.getSuperInterfaceNames:
a TSInterfaceHeritage entry whose expression is a bare identifier yields the
name, anything else throws an error carrying file, line and column. -/
def superInterfaceName (fileName : String) (entry : HeritageEntry) :
    Except LoadError String :=
  match entry.kind, entry.expression with
  | .tsInterfaceHeritage, .identifier name => .ok name
  | _, _ => .error (.unsupportedSuperInterface fileName entry.loc)

/-- JavaScript Array.map with a callback that can throw: the callback runs
left to right and the first thrown error propagates. -/
def mapExcept {α β : Type} (f : α → Except LoadError β) :
    List α → Except LoadError (List β)
  | [] => .ok []
  | a :: l =>
    match f a with
    | .error e => .error e
    | .ok b =>
      match mapExcept f l with
      | .error e => .error e
      | .ok bs => .ok (b :: bs)

/-- ClassLoader.getSuperInterfaceNames: map every entry of the extends list
(defaulting to the empty list) through the per-entry interpretation. -/
def getSuperInterfaceNames (declaration : TSInterfaceDeclaration)
    (fileName : String) : Except LoadError (List String) :=
  mapExcept (superInterfaceName fileName) (declaration.extendsList.getD [])

/-- A loaded symbol: the tagged result of loadClassDeclaration, carrying the
spread class reference, the declaration node, the full AST, the abstract
flag (classes only), the generics record, and the optional comment. -/
inductive LoadedSymbol where
  | classLoaded (localName : String) (fileName : String)
      (declaration : ClassDeclaration) (ast : List Statement) (abstract : Bool)
      (generics : GenericTypes) (comment : Option String)
  | interfaceLoaded (localName : String) (fileName : String)
      (declaration : TSInterfaceDeclaration) (ast : List Statement)
      (generics : GenericTypes) (comment : Option String)
deriving DecidableEq

/-- The localName a loaded symbol carries. -/
def symbolLocalName : LoadedSymbol → String
  | .classLoaded l _ _ _ _ _ _ => l
  | .interfaceLoaded l _ _ _ _ _ => l

/-- The fileName a loaded symbol carries. -/
def symbolFileName : LoadedSymbol → String
  | .classLoaded _ f _ _ _ _ _ => f
  | .interfaceLoaded _ f _ _ _ _ => f

/-- Whether a loaded symbol has the class type tag. -/
def isClassLoaded : LoadedSymbol → Bool
  | .classLoaded _ _ _ _ _ _ _ => true
  | .interfaceLoaded _ _ _ _ _ _ => false

/-- The declaration node of a loaded symbol, as a tagged value. -/
def declarationOf : LoadedSymbol → ClassOrInterface
  | .classLoaded _ _ d _ _ _ _ => .cls d
  | .interfaceLoaded _ _ d _ _ _ => .iface d

/-- Modelled from the spec: the CommentLoader component is not under src.
Per the spec the comment is attached from the nearest preceding
documentation comment when present and non-empty; we model the AST provider
as attaching the documentation text to the declaration node and the
CommentLoader as returning it as the comment description. -/
def getCommentDescription : ClassOrInterface → Option String
  | .cls d => d.comment
  | .iface d => d.comment

/-- Assignment of the comment field of a loaded symbol. -/
def withComment : LoadedSymbol → String → LoadedSymbol
  | .classLoaded l f d a ab g _, c => .classLoaded l f d a ab g (some c)
  | .interfaceLoaded l f d a g _, c => .interfaceLoaded l f d a g (some c)

/-- ClassLoader.enhanceLoadedWithComment: attach the comment description to
the loaded symbol when it is present and non-empty (the JavaScript truthiness
test on the description). -/
def enhanceLoadedWithComment (classLoaded : LoadedSymbol) : LoadedSymbol :=
  match getCommentDescription (declarationOf classLoaded) with
  | some description =>
    if description = "" then classLoaded else withComment classLoaded description
  | none => classLoaded

/-- The ClassLoaded object literal built by loadClassDeclaration for a class
hit: spread reference fields, declaration, ast, the abstract flag of the
declaration, and the collected generics; the comment is not yet attached. -/
def mkClassLoaded (classReference : ClassReference)
    (declaration : ClassDeclaration) (ast : List Statement) : LoadedSymbol :=
  .classLoaded classReference.localName classReference.fileName declaration ast
    declaration.abstract (collectGenericTypes (.cls declaration)) none

/-- The InterfaceLoaded object literal built by loadClassDeclaration for an
interface hit. -/
def mkInterfaceLoaded (classReference : ClassReference)
    (declaration : TSInterfaceDeclaration) (ast : List Statement) : LoadedSymbol :=
  .interfaceLoaded classReference.localName classReference.fileName declaration ast
    (collectGenericTypes (.iface declaration)) none

/-- The outcome of the fueled resolver: a loaded symbol, a thrown error, or
fuel exhaustion. Fuel exhaustion is distinct from thrown errors and is not
caught anywhere, so that a result of outOfFuel for every fuel value
faithfully represents divergence of the original unbounded recursion. -/
inductive LoadResult where
  | ok (symbol : LoadedSymbol)
  | err (e : LoadError)
  | outOfFuel
deriving DecidableEq

/-- The resolution context: the per-file AST cache behind
resolutionContext.parseTypescriptFile, modelled as a file-name-keyed map. -/
abbrev ResolutionContext := List (String × List Statement)

/-- resolutionContext.parseTypescriptFile: look the file up in the context;
a missing file is a parse failure. -/
def parseTypescriptFile (ctx : ResolutionContext) (fileName : String) :
    Except LoadError (List Statement) :=
  match (ctx.find? (fun p => p.1 == fileName)).map Prod.snd with
  | some ast => .ok ast
  | none => .error (.fileParseError fileName)

/-- The loop over exportedImportedAll at the end of loadClassDeclaration:
try each wildcard re-export target in order with the recursive resolver
passed in as load2; a thrown error from a target is caught and ignored, the
first success returns, and exhaustion throws the not-found error. Fuel
exhaustion inside a target is not an error and propagates. -/
def tryWildcardExports (load2 : ClassReference → Bool → LoadResult)
    (localName : String) (considerInterfaces : Bool) (notFoundError : LoadError) :
    List String → LoadResult
  | [] => .err notFoundError
  | subFile :: rest =>
    match load2 ⟨localName, subFile⟩ considerInterfaces with
    | .ok s => .ok s
    | .err _ => tryWildcardExports load2 localName considerInterfaces notFoundError rest
    | .outOfFuel => .outOfFuel

/-- Steps five to seven of loadClassDeclaration: follow an importedElements
binding, else an exportedImportedElements binding, else iterate the wildcard
re-export targets; every recursive hop receives the same considerInterfaces
value. -/
def loadFromIndirections (load2 : ClassReference → Bool → LoadResult)
    (classReference : ClassReference) (considerInterfaces : Bool)
    (elements : ClassElements) : LoadResult :=
  match recLookup elements.importedElements classReference.localName with
  | some target => load2 target considerInterfaces
  | none =>
    match recLookup elements.exportedImportedElements classReference.localName with
    | some target => load2 target considerInterfaces
    | none =>
      tryWildcardExports load2 classReference.localName considerInterfaces
        (.symbolNotFound considerInterfaces classReference.localName
          classReference.fileName)
        elements.exportedImportedAll

/-- The body of loadClassDeclaration after parsing and extraction: the
cascade over exportedClasses, declaredClasses, then (only when
considerInterfaces holds) exportedInterfaces and declaredInterfaces, then
the indirections; load2 is the recursive resolver. The exportedUnknowns
field of the elements is never consulted. -/
def loadFromElements (load2 : ClassReference → Bool → LoadResult)
    (classReference : ClassReference) (considerInterfaces : Bool)
    (ast : List Statement) (elements : ClassElements) : LoadResult :=
  match recLookup elements.exportedClasses classReference.localName with
  | some declaration =>
    .ok (enhanceLoadedWithComment (mkClassLoaded classReference declaration ast))
  | none =>
    match recLookup elements.declaredClasses classReference.localName with
    | some declaration =>
      .ok (enhanceLoadedWithComment (mkClassLoaded classReference declaration ast))
    | none =>
      if considerInterfaces then
        match recLookup elements.exportedInterfaces classReference.localName with
        | some declaration =>
          .ok (enhanceLoadedWithComment (mkInterfaceLoaded classReference declaration ast))
        | none =>
          match recLookup elements.declaredInterfaces classReference.localName with
          | some declaration =>
            .ok (enhanceLoadedWithComment (mkInterfaceLoaded classReference declaration ast))
          | none => loadFromIndirections load2 classReference considerInterfaces elements
      else loadFromIndirections load2 classReference considerInterfaces elements

/-- The extraction half of loadClassDeclaration once the file is parsed:
extract the ClassElements of the file and run the cascade. -/
def loadWithAst (load2 : ClassReference → Bool → LoadResult)
    (classReference : ClassReference) (considerInterfaces : Bool)
    (ast : List Statement) : LoadResult :=
  match getClassElements classReference.fileName ast with
  | .error e => .err e
  | .ok elements =>
    loadFromElements load2 classReference considerInterfaces ast elements

/-- ClassLoader.loadClassDeclaration, fueled: parse the referenced file,
extract its ClassElements, and run the resolution cascade; each recursive
hop spends one unit of fuel. -/
def loadClassDeclaration (ctx : ResolutionContext) :
    Nat → ClassReference → Bool → LoadResult
  | 0, _, _ => .outOfFuel
  | fuel + 1, classReference, considerInterfaces =>
    match parseTypescriptFile ctx classReference.fileName with
    | .error e => .err e
    | .ok ast =>
      loadWithAst (loadClassDeclaration ctx fuel) classReference
        considerInterfaces ast

/-- Whether an interface heritage entry is a TSInterfaceHeritage node whose
expression is a bare identifier, the only accepted shape. -/
def isBareInterfaceHeritage (entry : HeritageEntry) : Bool :=
  match entry.kind, entry.expression with
  | .tsInterfaceHeritage, .identifier _ => true
  | _, _ => false

/-- Structural equivalence of loaded symbols in the sense of the
specification: same type tag, declaration node, ast, generics, abstract
flag, and comment; the reference fields are not compared. -/
def structurallyEquivalent : LoadedSymbol → LoadedSymbol → Prop
  | .classLoaded _ _ d a ab g c, .classLoaded _ _ d2 a2 ab2 g2 c2 =>
    d = d2 ∧ a = a2 ∧ ab = ab2 ∧ g = g2 ∧ c = c2
  | .interfaceLoaded _ _ d a g c, .interfaceLoaded _ _ d2 a2 g2 c2 =>
    d = d2 ∧ a = a2 ∧ g = g2 ∧ c = c2
  | _, _ => False

/-- Written following the specification wording for comparison with the
extractor: the wildcard re-export targets of a file, in the order their
export-all statements appear in the file. -/
def wildcardTargetsInDeclarationOrder (fileName : String)
    (ast : List Statement) : List String :=
  ast.foldl
    (fun acc statement =>
      match statement with
      | .exportAllDeclaration (some (.stringLiteral value)) =>
        acc ++ [pathJoin (pathDirname fileName) value]
      | _ => acc)
    []

/-- The contribution of one statement to the wildcard target list: an
export-all statement with a string-literal source appends its resolved
target, every other statement contributes nothing. -/
def exportAllContribution (f : String) (l : List String) : Statement → List String
  | .exportAllDeclaration (some (.stringLiteral v)) =>
    l ++ [pathJoin (pathDirname f) v]
  | _ => l

/-- A fixed source location for the concrete example files below. -/
def loc0 : SourceLoc := ⟨1, 0⟩

/-- A plain exported class declaration named A. -/
def directDecl : ClassDeclaration := ⟨some "A", false, none, none, loc0, none⟩

/-- A file exporting class A directly. -/
def directAst : List Statement :=
  [.exportNamedDeclaration (some (.classDecl directDecl)) [] none]

/-- The extraction of the direct-export file. -/
def directElements : ClassElements :=
  { emptyClassElements with exportedClasses := [("A", directDecl)] }

/-- A one-file context exporting class A directly. -/
def directCtx : ResolutionContext := [("src/a.ts", directAst)]

/-- An abstract, documented, generic class declaration named B. -/
def reexportedDecl : ClassDeclaration :=
  ⟨some "B", true, none, some [⟨"T", some ⟨"Foo"⟩⟩], loc0, some "docs"⟩

/-- The file declaring the class B authoritatively. -/
def reexportTargetAst : List Statement :=
  [.exportNamedDeclaration (some (.classDecl reexportedDecl)) [] none]

/-- A context in which src/a.ts re-exports the class B of src/b.ts. -/
def reexportCtx : ResolutionContext :=
  [("src/a.ts",
    [.exportNamedDeclaration none [⟨"B", "B"⟩] (some (.stringLiteral "./b.ts"))]),
   ("src/b.ts", reexportTargetAst)]

/-- The symbol loaded for B through the re-export indirection. -/
def reexportedSymbol : LoadedSymbol :=
  .classLoaded "B" "src/b.ts" reexportedDecl reexportTargetAst true
    [("T", ⟨some ⟨"Foo"⟩⟩)] (some "docs")

/-- A plain exported class declaration named X. -/
def wildcardDeclX : ClassDeclaration := ⟨some "X", false, none, none, loc0, none⟩

/-- A file exporting class X directly. -/
def wildcardGoodAst : List Statement :=
  [.exportNamedDeclaration (some (.classDecl wildcardDeclX)) [] none]

/-- The root file of the wildcard example: two export-all statements. -/
def wildcardRootAst : List Statement :=
  [.exportAllDeclaration (some (.stringLiteral "./b.ts")),
   .exportAllDeclaration (some (.stringLiteral "./c.ts"))]

/-- The extraction of the wildcard root file. -/
def wildcardRootElements : ClassElements :=
  { emptyClassElements with exportedImportedAll := ["src/b.ts", "src/c.ts"] }

/-- A context where the first wildcard target lacks X and the second one
exports it. -/
def wildcardCtx : ResolutionContext :=
  [("src/a.ts", wildcardRootAst),
   ("src/b.ts", []),
   ("src/c.ts", wildcardGoodAst)]

/-- The symbol loaded for X through the second wildcard target. -/
def wildcardSymbol : LoadedSymbol :=
  .classLoaded "X" "src/c.ts" wildcardDeclX wildcardGoodAst false [] none

/-- Two files that wildcard re-export each other and declare nothing. -/
def cyclicCtx : ResolutionContext :=
  [("src/a.ts", [.exportAllDeclaration (some (.stringLiteral "./b.ts"))]),
   ("src/b.ts", [.exportAllDeclaration (some (.stringLiteral "./a.ts"))])]

/-- A context with one empty file. -/
def emptyFileCtx : ResolutionContext := [("src/e.ts", [])]

/-- A context whose single file only re-exports a name without a source
module. -/
def unknownsCtx : ResolutionContext :=
  [("src/u.ts", [.exportNamedDeclaration none [⟨"A", "B"⟩] none])]

/-- A context where src/a.ts reaches the class A of src/b.ts only through a
default import. -/
def defaultImportCtx : ResolutionContext :=
  [("src/a.ts", [.importDeclaration [.importDefaultSpecifier "A"] (.stringLiteral "./b.ts")]),
   ("src/b.ts", directAst)]

/-- An exported class declaration with no name, which makes extraction
fail. -/
def malformedDecl : ClassDeclaration := ⟨none, false, none, none, loc0, none⟩

/-- A file whose extraction fails with the malformed-export error. -/
def malformedAst : List Statement :=
  [.exportNamedDeclaration (some (.classDecl malformedDecl)) [] none]

/-- A context whose first wildcard target fails extraction outright and
whose second target exports X. -/
def malformedCtx : ResolutionContext :=
  [("src/a.ts", [.exportAllDeclaration (some (.stringLiteral "./bad.ts")),
                 .exportAllDeclaration (some (.stringLiteral "./good.ts"))]),
   ("src/bad.ts", malformedAst),
   ("src/good.ts", wildcardGoodAst)]

/-- The symbol loaded for X past the malformed wildcard target. -/
def malformedCtxSymbol : LoadedSymbol :=
  .classLoaded "X" "src/good.ts" wildcardDeclX wildcardGoodAst false [] none

/-- A class declaration extending a namespaced superclass. -/
def nsSuperDecl : ClassDeclaration :=
  ⟨some "A", false, some ⟨.memberExpression (.identifier "ns") (.identifier "B"), loc0⟩,
    none, loc0, none⟩

/-- An interface declaration with a non-identifier heritage entry. -/
def badHeritageIface : TSInterfaceDeclaration :=
  ⟨"I", some [⟨.otherHeritage, .identifier "J", loc0⟩], none, loc0, none⟩

/-- A class declaration with one bounded and one unbounded type parameter. -/
def genericDecl : ClassDeclaration :=
  ⟨some "G", false, none, some [⟨"T", some ⟨"Foo"⟩⟩, ⟨"U", none⟩], loc0, none⟩

theorem symbolLocalName_withComment (s : LoadedSymbol) (c : String) :
    symbolLocalName (withComment s c) = symbolLocalName s := by
  cases s <;> rfl

theorem symbolFileName_withComment (s : LoadedSymbol) (c : String) :
    symbolFileName (withComment s c) = symbolFileName s := by
  cases s <;> rfl

theorem isClassLoaded_withComment (s : LoadedSymbol) (c : String) :
    isClassLoaded (withComment s c) = isClassLoaded s := by
  cases s <;> rfl

theorem symbolLocalName_enhance (s : LoadedSymbol) :
    symbolLocalName (enhanceLoadedWithComment s) = symbolLocalName s := by
  unfold enhanceLoadedWithComment
  cases getCommentDescription (declarationOf s) with
  | none => rfl
  | some c =>
    by_cases hc : c = "" <;> simp [hc, symbolLocalName_withComment]

theorem symbolFileName_enhance (s : LoadedSymbol) :
    symbolFileName (enhanceLoadedWithComment s) = symbolFileName s := by
  unfold enhanceLoadedWithComment
  cases getCommentDescription (declarationOf s) with
  | none => rfl
  | some c =>
    by_cases hc : c = "" <;> simp [hc, symbolFileName_withComment]

theorem isClassLoaded_enhance (s : LoadedSymbol) :
    isClassLoaded (enhanceLoadedWithComment s) = isClassLoaded s := by
  unfold enhanceLoadedWithComment
  cases getCommentDescription (declarationOf s) with
  | none => rfl
  | some c =>
    by_cases hc : c = "" <;> simp [hc, isClassLoaded_withComment]

theorem tryWildcardExports_ok {load2 : ClassReference → Bool → LoadResult}
    {n : String} {ci : Bool} {nf : LoadError} {targets : List String}
    {s : LoadedSymbol}
    (h : tryWildcardExports load2 n ci nf targets = .ok s) :
    ∃ t ∈ targets, load2 ⟨n, t⟩ ci = .ok s := by
  induction targets with
  | nil => exact absurd h (by simp [tryWildcardExports])
  | cons t rest ih =>
    unfold tryWildcardExports at h
    cases hl : load2 ⟨n, t⟩ ci with
    | ok s2 =>
      rw [hl] at h
      injection h with h2
      exact ⟨t, by simp, by rw [hl, h2]⟩
    | err e =>
      rw [hl] at h
      obtain ⟨t2, ht2, h2⟩ := ih h
      exact ⟨t2, by simp [ht2], h2⟩
    | outOfFuel =>
      rw [hl] at h
      cases h

theorem tryWildcardExports_err_head {load2 : ClassReference → Bool → LoadResult}
    {n : String} {ci : Bool} {nf : LoadError} {t : String} {rest : List String}
    {e : LoadError} (h : load2 ⟨n, t⟩ ci = .err e) :
    tryWildcardExports load2 n ci nf (t :: rest) =
      tryWildcardExports load2 n ci nf rest := by
  show (match load2 ⟨n, t⟩ ci with
    | .ok s => LoadResult.ok s
    | .err _ => tryWildcardExports load2 n ci nf rest
    | .outOfFuel => .outOfFuel) = tryWildcardExports load2 n ci nf rest
  rw [h]

theorem tryWildcardExports_all_err {load2 : ClassReference → Bool → LoadResult}
    {n : String} {ci : Bool} {nf : LoadError} {targets : List String}
    (h : ∀ t ∈ targets, ∃ e, load2 ⟨n, t⟩ ci = .err e) :
    tryWildcardExports load2 n ci nf targets = .err nf := by
  induction targets with
  | nil => rfl
  | cons t rest ih =>
    obtain ⟨e, he⟩ := h t (by simp)
    rw [tryWildcardExports_err_head he]
    exact ih (fun t2 ht2 => h t2 (by simp [ht2]))

theorem tryWildcardExports_first_ok {load2 : ClassReference → Bool → LoadResult}
    {n : String} {ci : Bool} {nf : LoadError} {pre : List String} {b : String}
    {post : List String} {s : LoadedSymbol}
    (hpre : ∀ a ∈ pre, ∃ e, load2 ⟨n, a⟩ ci = .err e)
    (hb : load2 ⟨n, b⟩ ci = .ok s) :
    tryWildcardExports load2 n ci nf (pre ++ b :: post) = .ok s := by
  induction pre with
  | nil =>
    rw [List.nil_append]
    unfold tryWildcardExports
    rw [hb]
  | cons a rest ih =>
    obtain ⟨e, he⟩ := hpre a (by simp)
    rw [List.cons_append, tryWildcardExports_err_head he]
    exact ih (fun x hx => hpre x (by simp [hx]))

theorem loadWithAst_elements {load2 : ClassReference → Bool → LoadResult}
    {classReference : ClassReference} {ci : Bool} {ast : List Statement}
    {elements : ClassElements}
    (he : getClassElements classReference.fileName ast = .ok elements) :
    loadWithAst load2 classReference ci ast =
      loadFromElements load2 classReference ci ast elements := by
  unfold loadWithAst
  rw [he]

theorem loadClassDeclaration_zero (ctx : ResolutionContext)
    (classReference : ClassReference) (ci : Bool) :
    loadClassDeclaration ctx 0 classReference ci = .outOfFuel := rfl

theorem loadClassDeclaration_succ {ctx : ResolutionContext} {fuel : Nat}
    {classReference : ClassReference} {ci : Bool} {ast : List Statement}
    {elements : ClassElements}
    (hp : parseTypescriptFile ctx classReference.fileName = .ok ast)
    (he : getClassElements classReference.fileName ast = .ok elements) :
    loadClassDeclaration ctx (fuel + 1) classReference ci =
      loadFromElements (loadClassDeclaration ctx fuel) classReference ci ast
        elements := by
  unfold loadClassDeclaration
  rw [hp]
  exact loadWithAst_elements he

theorem loadClassDeclaration_succ_ok_inv {ctx : ResolutionContext} {fuel : Nat}
    {classReference : ClassReference} {ci : Bool} {s : LoadedSymbol}
    (h : loadClassDeclaration ctx (fuel + 1) classReference ci = .ok s) :
    ∃ ast elements,
      parseTypescriptFile ctx classReference.fileName = .ok ast ∧
      getClassElements classReference.fileName ast = .ok elements ∧
      loadFromElements (loadClassDeclaration ctx fuel) classReference ci ast
        elements = .ok s := by
  unfold loadClassDeclaration at h
  cases hp : parseTypescriptFile ctx classReference.fileName with
  | error e => rw [hp] at h; cases h
  | ok ast =>
    rw [hp] at h
    have h2 : loadWithAst (loadClassDeclaration ctx fuel) classReference ci ast = .ok s := h
    unfold loadWithAst at h2
    cases he : getClassElements classReference.fileName ast with
    | error e => rw [he] at h2; cases h2
    | ok elements =>
      rw [he] at h2
      exact ⟨ast, elements, rfl, he, h2⟩

theorem loadFromElements_ok_inv {load2 : ClassReference → Bool → LoadResult}
    {classReference : ClassReference} {ci : Bool} {ast : List Statement}
    {elements : ClassElements} {s : LoadedSymbol}
    (h : loadFromElements load2 classReference ci ast elements = .ok s) :
    (∃ d, s = enhanceLoadedWithComment (mkClassLoaded classReference d ast) ∧
      ∀ load3, loadFromElements load3 classReference ci ast elements = .ok s) ∨
    (∃ d, s = enhanceLoadedWithComment (mkInterfaceLoaded classReference d ast) ∧
      ci = true ∧
      ∀ load3, loadFromElements load3 classReference ci ast elements = .ok s) ∨
    (∃ target, load2 target ci = .ok s) := by
  unfold loadFromElements at h
  cases h1 : recLookup elements.exportedClasses classReference.localName with
  | some d =>
    rw [h1] at h
    injection h with h2
    subst h2
    exact Or.inl ⟨d, rfl, fun load3 => by unfold loadFromElements; rw [h1]⟩
  | none =>
    rw [h1] at h
    cases h2 : recLookup elements.declaredClasses classReference.localName with
    | some d =>
      rw [h2] at h
      injection h with h3
      subst h3
      exact Or.inl ⟨d, rfl, fun load3 => by unfold loadFromElements; rw [h1, h2]⟩
    | none =>
      rw [h2] at h
      cases hci : ci with
      | false =>
        rw [hci] at h
        simp only [if_false, Bool.false_eq_true] at h
        unfold loadFromIndirections at h
        cases h3 : recLookup elements.importedElements classReference.localName with
        | some target => rw [h3] at h; exact Or.inr (Or.inr ⟨target, h⟩)
        | none =>
          rw [h3] at h
          cases h4 : recLookup elements.exportedImportedElements classReference.localName with
          | some target => rw [h4] at h; exact Or.inr (Or.inr ⟨target, h⟩)
          | none =>
            rw [h4] at h
            obtain ⟨t, _, ht⟩ := tryWildcardExports_ok h
            exact Or.inr (Or.inr ⟨⟨classReference.localName, t⟩, ht⟩)
      | true =>
        rw [hci] at h
        simp only [if_true] at h
        cases h5 : recLookup elements.exportedInterfaces classReference.localName with
        | some d =>
          rw [h5] at h
          injection h with h6
          subst h6
          refine Or.inr (Or.inl ⟨d, rfl, rfl, fun load3 => ?_⟩)
          unfold loadFromElements
          rw [h1, h2, h5]
          simp only [if_true]
        | none =>
          rw [h5] at h
          cases h6 : recLookup elements.declaredInterfaces classReference.localName with
          | some d =>
            rw [h6] at h
            injection h with h7
            subst h7
            refine Or.inr (Or.inl ⟨d, rfl, rfl, fun load3 => ?_⟩)
            unfold loadFromElements
            rw [h1, h2, h5, h6]
            simp only [if_true]
          | none =>
            rw [h6] at h
            unfold loadFromIndirections at h
            cases h7 : recLookup elements.importedElements classReference.localName with
            | some target => rw [h7] at h; exact Or.inr (Or.inr ⟨target, h⟩)
            | none =>
              rw [h7] at h
              cases h8 : recLookup elements.exportedImportedElements classReference.localName with
              | some target => rw [h8] at h; exact Or.inr (Or.inr ⟨target, h⟩)
              | none =>
                rw [h8] at h
                obtain ⟨t, _, ht⟩ := tryWildcardExports_ok h
                exact Or.inr (Or.inr ⟨⟨classReference.localName, t⟩, ht⟩)

theorem structurallyEquivalent_refl (s : LoadedSymbol) :
    structurallyEquivalent s s := by
  cases s <;> simp [structurallyEquivalent]

theorem isClassLoaded_of_load_false :
    ∀ ctx fuel classReference s,
      loadClassDeclaration ctx fuel classReference false = .ok s →
      isClassLoaded s = true := by
  intro ctx fuel
  induction fuel with
  | zero =>
    intro r s h
    rw [loadClassDeclaration_zero] at h
    cases h
  | succ fuel ih =>
    intro r s h
    obtain ⟨ast, elements, hp, he, hl⟩ := loadClassDeclaration_succ_ok_inv h
    rcases loadFromElements_ok_inv hl with ⟨d, hs, _⟩ | ⟨d, hs, hci, _⟩ | ⟨target, ht⟩
    · rw [hs, isClassLoaded_enhance]; rfl
    · exact absurd hci (by simp)
    · exact ih target s ht

/-- C1: loadClassDeclaration resolves a reference by trying, in this fixed
order with first success winning: the exportedClasses of the file, then
declaredClasses, then (only when considerInterfaces is true)
exportedInterfaces and declaredInterfaces, then the importedElements
binding, then the exportedImportedElements binding, then the wildcard
re-export targets; every recursive hop is made with the same
considerInterfaces value as the original call, and an interface is never
returned when considerInterfaces is false. -/
theorem loadClassDeclaration_resolution_order :
    (∀ ctx fuel classReference ci ast elements,
      parseTypescriptFile ctx classReference.fileName = .ok ast →
      getClassElements classReference.fileName ast = .ok elements →
      ((∀ d,
          recLookup elements.exportedClasses classReference.localName = some d →
          loadClassDeclaration ctx (fuel + 1) classReference ci =
            .ok (enhanceLoadedWithComment (mkClassLoaded classReference d ast))) ∧
       (recLookup elements.exportedClasses classReference.localName = none →
        ∀ d,
          recLookup elements.declaredClasses classReference.localName = some d →
          loadClassDeclaration ctx (fuel + 1) classReference ci =
            .ok (enhanceLoadedWithComment (mkClassLoaded classReference d ast))) ∧
       (recLookup elements.exportedClasses classReference.localName = none →
        recLookup elements.declaredClasses classReference.localName = none →
        ∀ d,
          recLookup elements.exportedInterfaces classReference.localName = some d →
          loadClassDeclaration ctx (fuel + 1) classReference true =
            .ok (enhanceLoadedWithComment (mkInterfaceLoaded classReference d ast))) ∧
       (recLookup elements.exportedClasses classReference.localName = none →
        recLookup elements.declaredClasses classReference.localName = none →
        recLookup elements.exportedInterfaces classReference.localName = none →
        ∀ d,
          recLookup elements.declaredInterfaces classReference.localName = some d →
          loadClassDeclaration ctx (fuel + 1) classReference true =
            .ok (enhanceLoadedWithComment (mkInterfaceLoaded classReference d ast))) ∧
       (recLookup elements.exportedClasses classReference.localName = none →
        recLookup elements.declaredClasses classReference.localName = none →
        (ci = true →
          recLookup elements.exportedInterfaces classReference.localName = none ∧
          recLookup elements.declaredInterfaces classReference.localName = none) →
        ∀ target,
          recLookup elements.importedElements classReference.localName = some target →
          loadClassDeclaration ctx (fuel + 1) classReference ci =
            loadClassDeclaration ctx fuel target ci) ∧
       (recLookup elements.exportedClasses classReference.localName = none →
        recLookup elements.declaredClasses classReference.localName = none →
        (ci = true →
          recLookup elements.exportedInterfaces classReference.localName = none ∧
          recLookup elements.declaredInterfaces classReference.localName = none) →
        recLookup elements.importedElements classReference.localName = none →
        ∀ target,
          recLookup elements.exportedImportedElements classReference.localName = some target →
          loadClassDeclaration ctx (fuel + 1) classReference ci =
            loadClassDeclaration ctx fuel target ci) ∧
       (recLookup elements.exportedClasses classReference.localName = none →
        recLookup elements.declaredClasses classReference.localName = none →
        (ci = true →
          recLookup elements.exportedInterfaces classReference.localName = none ∧
          recLookup elements.declaredInterfaces classReference.localName = none) →
        recLookup elements.importedElements classReference.localName = none →
        recLookup elements.exportedImportedElements classReference.localName = none →
        loadClassDeclaration ctx (fuel + 1) classReference ci =
          tryWildcardExports (loadClassDeclaration ctx fuel)
            classReference.localName ci
            (.symbolNotFound ci classReference.localName classReference.fileName)
            elements.exportedImportedAll))) ∧
    (∀ ctx fuel classReference s,
      loadClassDeclaration ctx fuel classReference false = .ok s →
      isClassLoaded s = true) := by
  constructor
  · intro ctx fuel r ci ast elements hp he
    refine ⟨?_, ?_, ?_, ?_, ?_, ?_, ?_⟩
    · intro d hd
      rw [loadClassDeclaration_succ hp he]
      unfold loadFromElements
      rw [hd]
    · intro h1 d hd
      rw [loadClassDeclaration_succ hp he]
      unfold loadFromElements
      rw [h1, hd]
    · intro h1 h2 d hd
      rw [loadClassDeclaration_succ hp he]
      unfold loadFromElements
      rw [h1, h2, hd]
      rfl
    · intro h1 h2 h3 d hd
      rw [loadClassDeclaration_succ hp he]
      unfold loadFromElements
      rw [h1, h2, h3, hd]
      rfl
    · intro h1 h2 hi target ht
      rw [loadClassDeclaration_succ hp he]
      unfold loadFromElements
      rw [h1, h2]
      cases ci with
      | false =>
        show loadFromIndirections (loadClassDeclaration ctx fuel) r false elements =
          loadClassDeclaration ctx fuel target false
        unfold loadFromIndirections
        rw [ht]
      | true =>
        obtain ⟨h3, h4⟩ := hi rfl
        rw [h3, h4]
        show loadFromIndirections (loadClassDeclaration ctx fuel) r true elements =
          loadClassDeclaration ctx fuel target true
        unfold loadFromIndirections
        rw [ht]
    · intro h1 h2 hi hm target ht
      rw [loadClassDeclaration_succ hp he]
      unfold loadFromElements
      rw [h1, h2]
      cases ci with
      | false =>
        show loadFromIndirections (loadClassDeclaration ctx fuel) r false elements =
          loadClassDeclaration ctx fuel target false
        unfold loadFromIndirections
        rw [hm, ht]
      | true =>
        obtain ⟨h3, h4⟩ := hi rfl
        rw [h3, h4]
        show loadFromIndirections (loadClassDeclaration ctx fuel) r true elements =
          loadClassDeclaration ctx fuel target true
        unfold loadFromIndirections
        rw [hm, ht]
    · intro h1 h2 hi hm hx
      rw [loadClassDeclaration_succ hp he]
      unfold loadFromElements
      rw [h1, h2]
      cases ci with
      | false =>
        show loadFromIndirections (loadClassDeclaration ctx fuel) r false elements = _
        unfold loadFromIndirections
        rw [hm, hx]
      | true =>
        obtain ⟨h3, h4⟩ := hi rfl
        rw [h3, h4]
        show loadFromIndirections (loadClassDeclaration ctx fuel) r true elements = _
        unfold loadFromIndirections
        rw [hm, hx]
  · exact isClassLoaded_of_load_false

theorem loadClassDeclaration_resolution_order_witness :
    loadClassDeclaration directCtx 1 ⟨"A", "src/a.ts"⟩ false =
      .ok (enhanceLoadedWithComment
        (mkClassLoaded ⟨"A", "src/a.ts"⟩ directDecl directAst)) ∧
    isClassLoaded (enhanceLoadedWithComment
      (mkClassLoaded ⟨"A", "src/a.ts"⟩ directDecl directAst)) = true := by
  have h := (loadClassDeclaration_resolution_order.1 directCtx 0 ⟨"A", "src/a.ts"⟩
    false directAst directElements rfl rfl).1 directDecl rfl
  exact ⟨h, loadClassDeclaration_resolution_order.2 directCtx 1 ⟨"A", "src/a.ts"⟩ _ h⟩

/-- C2: whenever resolution of a reference succeeds, resolving the loaded
own reference of the loaded symbol, that of the authoritative declaration, in
its own file succeeds with a structurally equivalent loaded symbol: same
type tag, declaration node, ast, generics, abstract flag, and comment. -/
theorem loadClassDeclaration_indirection_transparent :
    ∀ ctx ci fuel classReference s,
      loadClassDeclaration ctx fuel classReference ci = .ok s →
      ∃ s2,
        loadClassDeclaration ctx 1 ⟨symbolLocalName s, symbolFileName s⟩ ci = .ok s2 ∧
        structurallyEquivalent s s2 := by
  intro ctx ci fuel
  induction fuel with
  | zero =>
    intro r s h
    rw [loadClassDeclaration_zero] at h
    cases h
  | succ fuel ih =>
    intro r s h
    obtain ⟨ast, elements, hp, he, hl⟩ := loadClassDeclaration_succ_ok_inv h
    rcases loadFromElements_ok_inv hl with ⟨d, hs, hall⟩ | ⟨d, hs, _, hall⟩ | ⟨target, ht⟩
    · refine ⟨s, ?_, structurallyEquivalent_refl s⟩
      have h1 : symbolLocalName s = r.localName := by
        rw [hs, symbolLocalName_enhance]; rfl
      have h2 : symbolFileName s = r.fileName := by
        rw [hs, symbolFileName_enhance]; rfl
      rw [h1, h2]
      show loadClassDeclaration ctx (0 + 1) r ci = .ok s
      rw [loadClassDeclaration_succ hp he]
      exact hall (loadClassDeclaration ctx 0)
    · refine ⟨s, ?_, structurallyEquivalent_refl s⟩
      have h1 : symbolLocalName s = r.localName := by
        rw [hs, symbolLocalName_enhance]; rfl
      have h2 : symbolFileName s = r.fileName := by
        rw [hs, symbolFileName_enhance]; rfl
      rw [h1, h2]
      show loadClassDeclaration ctx (0 + 1) r ci = .ok s
      rw [loadClassDeclaration_succ hp he]
      exact hall (loadClassDeclaration ctx 0)
    · exact ih target s ht

theorem loadClassDeclaration_indirection_transparent_witness :
    ∃ s2,
      loadClassDeclaration reexportCtx 1
        ⟨symbolLocalName reexportedSymbol, symbolFileName reexportedSymbol⟩ false =
        .ok s2 ∧
      structurallyEquivalent reexportedSymbol s2 :=
  loadClassDeclaration_indirection_transparent reexportCtx false 2
    ⟨"B", "src/a.ts"⟩ reexportedSymbol (by decide)

theorem getClassElementsStep_ok_exportedImportedAll {f : String}
    {acc : ClassElements} {st : Statement} {acc2 : ClassElements}
    (h : getClassElementsStep f acc st = .ok acc2) :
    acc2.exportedImportedAll =
      exportAllContribution f acc.exportedImportedAll st := by
  cases st with
  | exportNamedDeclaration decl specs src =>
    cases decl with
    | none =>
      cases src with
      | none => injection h with h2; subst h2; rfl
      | some sv =>
        cases sv with
        | stringLiteral v => injection h with h2; subst h2; rfl
        | nonStringValue => injection h with h2; subst h2; rfl
    | some dn =>
      cases dn with
      | classDecl d =>
        obtain ⟨id, ab, sc, tp, lc, cm⟩ := d
        cases id with
        | none => cases h
        | some name => injection h with h2; subst h2; rfl
      | interfaceDecl d => injection h with h2; subst h2; rfl
      | otherDecl =>
        cases src with
        | none => injection h with h2; subst h2; rfl
        | some sv =>
          cases sv with
          | stringLiteral v => injection h with h2; subst h2; rfl
          | nonStringValue => injection h with h2; subst h2; rfl
  | exportAllDeclaration src =>
    cases src with
    | none => injection h with h2; subst h2; rfl
    | some sv =>
      cases sv with
      | stringLiteral v => injection h with h2; subst h2; rfl
      | nonStringValue => injection h with h2; subst h2; rfl
  | classDeclaration d =>
    obtain ⟨id, ab, sc, tp, lc, cm⟩ := d
    cases id with
    | none => injection h with h2; subst h2; rfl
    | some name => injection h with h2; subst h2; rfl
  | interfaceDeclaration d => injection h with h2; subst h2; rfl
  | importDeclaration specs src =>
    cases src with
    | stringLiteral v => injection h with h2; subst h2; rfl
    | nonStringValue => injection h with h2; subst h2; rfl
  | otherStatement => injection h with h2; subst h2; rfl

theorem foldStatements_exportedImportedAll :
    ∀ (ast : List Statement) (f : String) (acc elements : ClassElements),
      foldStatements f acc ast = .ok elements →
      elements.exportedImportedAll =
        ast.foldl (exportAllContribution f) acc.exportedImportedAll := by
  intro ast
  induction ast with
  | nil =>
    intro f acc elements h
    injection h with h2
    subst h2
    rfl
  | cons st rest ih =>
    intro f acc elements h
    unfold foldStatements at h
    cases hs : getClassElementsStep f acc st with
    | error e => rw [hs] at h; cases h
    | ok acc2 =>
      rw [hs] at h
      rw [List.foldl_cons, ih f acc2 elements h,
        getClassElementsStep_ok_exportedImportedAll hs]

theorem loadClassDeclaration_reaches_wildcards {ctx : ResolutionContext}
    {fuel : Nat} {classReference : ClassReference} {ci : Bool}
    {ast : List Statement} {elements : ClassElements}
    (hp : parseTypescriptFile ctx classReference.fileName = .ok ast)
    (he : getClassElements classReference.fileName ast = .ok elements)
    (h1 : recLookup elements.exportedClasses classReference.localName = none)
    (h2 : recLookup elements.declaredClasses classReference.localName = none)
    (hi : ci = true →
      recLookup elements.exportedInterfaces classReference.localName = none ∧
      recLookup elements.declaredInterfaces classReference.localName = none)
    (hm : recLookup elements.importedElements classReference.localName = none)
    (hx : recLookup elements.exportedImportedElements classReference.localName = none) :
    loadClassDeclaration ctx (fuel + 1) classReference ci =
      tryWildcardExports (loadClassDeclaration ctx fuel)
        classReference.localName ci
        (.symbolNotFound ci classReference.localName classReference.fileName)
        elements.exportedImportedAll := by
  rw [loadClassDeclaration_succ hp he]
  unfold loadFromElements
  rw [h1, h2]
  cases ci with
  | false =>
    show loadFromIndirections (loadClassDeclaration ctx fuel) classReference
      false elements = _
    unfold loadFromIndirections
    rw [hm, hx]
  | true =>
    obtain ⟨h3, h4⟩ := hi rfl
    rw [h3, h4]
    show loadFromIndirections (loadClassDeclaration ctx fuel) classReference
      true elements = _
    unfold loadFromIndirections
    rw [hm, hx]

/-- C3: when a symbol is in none of the earlier indexes, the wildcard
re-export targets are tried in the order their export-all statements appear
in the file; a failing target is skipped silently, and the first target
that resolves provides the overall result. -/
theorem loadClassDeclaration_wildcard_order :
    (∀ fileName ast elements,
      getClassElements fileName ast = .ok elements →
      elements.exportedImportedAll =
        wildcardTargetsInDeclarationOrder fileName ast) ∧
    (∀ ctx fuel classReference ci ast elements pre b post s,
      parseTypescriptFile ctx classReference.fileName = .ok ast →
      getClassElements classReference.fileName ast = .ok elements →
      recLookup elements.exportedClasses classReference.localName = none →
      recLookup elements.declaredClasses classReference.localName = none →
      (ci = true →
        recLookup elements.exportedInterfaces classReference.localName = none ∧
        recLookup elements.declaredInterfaces classReference.localName = none) →
      recLookup elements.importedElements classReference.localName = none →
      recLookup elements.exportedImportedElements classReference.localName = none →
      elements.exportedImportedAll = pre ++ b :: post →
      (∀ a ∈ pre, ∃ e,
        loadClassDeclaration ctx fuel ⟨classReference.localName, a⟩ ci = .err e) →
      loadClassDeclaration ctx fuel ⟨classReference.localName, b⟩ ci = .ok s →
      loadClassDeclaration ctx (fuel + 1) classReference ci = .ok s) := by
  constructor
  · intro fileName ast elements h
    exact foldStatements_exportedImportedAll ast fileName emptyClassElements
      elements h
  · intro ctx fuel r ci ast elements pre b post s hp he h1 h2 hi hm hx hsplit
      hpre hb
    rw [loadClassDeclaration_reaches_wildcards hp he h1 h2 hi hm hx, hsplit]
    exact tryWildcardExports_first_ok hpre hb

theorem loadClassDeclaration_wildcard_order_witness :
    wildcardRootElements.exportedImportedAll =
      wildcardTargetsInDeclarationOrder "src/a.ts" wildcardRootAst ∧
    loadClassDeclaration wildcardCtx 2 ⟨"X", "src/a.ts"⟩ false =
      .ok wildcardSymbol := by
  constructor
  · exact loadClassDeclaration_wildcard_order.1 "src/a.ts" wildcardRootAst
      wildcardRootElements rfl
  · exact loadClassDeclaration_wildcard_order.2 wildcardCtx 1 ⟨"X", "src/a.ts"⟩
      false wildcardRootAst wildcardRootElements ["src/b.ts"] "src/c.ts" []
      wildcardSymbol rfl rfl rfl rfl (fun hh => nomatch hh) rfl rfl rfl
      (fun a ha => by
        rw [List.mem_singleton] at ha
        subst ha
        exact ⟨.symbolNotFound false "X" "src/b.ts", by decide⟩)
      (by decide)

/-- C7: when the local name is in none of the indexes of the file, no import or
re-export binding matches, and every wildcard target fails, the resolver
fails with the not-found error carrying the considerInterfaces flag, the
requested symbol name and the file name it was requested from. -/
theorem loadClassDeclaration_exhausted_not_found :
    ∀ ctx fuel classReference ci ast elements,
      parseTypescriptFile ctx classReference.fileName = .ok ast →
      getClassElements classReference.fileName ast = .ok elements →
      recLookup elements.exportedClasses classReference.localName = none →
      recLookup elements.declaredClasses classReference.localName = none →
      (ci = true →
        recLookup elements.exportedInterfaces classReference.localName = none ∧
        recLookup elements.declaredInterfaces classReference.localName = none) →
      recLookup elements.importedElements classReference.localName = none →
      recLookup elements.exportedImportedElements classReference.localName = none →
      (∀ t ∈ elements.exportedImportedAll, ∃ e,
        loadClassDeclaration ctx fuel ⟨classReference.localName, t⟩ ci = .err e) →
      loadClassDeclaration ctx (fuel + 1) classReference ci =
        .err (.symbolNotFound ci classReference.localName
          classReference.fileName) := by
  intro ctx fuel r ci ast elements hp he h1 h2 hi hm hx hw
  rw [loadClassDeclaration_reaches_wildcards hp he h1 h2 hi hm hx]
  exact tryWildcardExports_all_err hw

theorem loadClassDeclaration_exhausted_not_found_witness :
    loadClassDeclaration emptyFileCtx 1 ⟨"Z", "src/e.ts"⟩ false =
      .err (.symbolNotFound false "Z" "src/e.ts") :=
  loadClassDeclaration_exhausted_not_found emptyFileCtx 0 ⟨"Z", "src/e.ts"⟩
    false [] emptyClassElements rfl rfl rfl rfl (fun hh => nomatch hh) rfl rfl
    (fun _ ht => nomatch ht)

theorem mapExcept_ok_mem {α β : Type} {f : α → Except LoadError β}
    {l : List α} {bs : List β} (h : mapExcept f l = .ok bs) :
    ∀ a ∈ l, ∃ b, f a = .ok b := by
  induction l generalizing bs with
  | nil => intro a ha; nomatch ha
  | cons x rest ih =>
    intro a ha
    unfold mapExcept at h
    cases hx : f x with
    | error e => rw [hx] at h; cases h
    | ok b =>
      rw [hx] at h
      cases hr : mapExcept f rest with
      | error e => rw [hr] at h; cases h
      | ok bs2 =>
        rcases List.mem_cons.mp ha with rfl | ha2
        · exact ⟨b, hx⟩
        · exact ih hr a ha2

theorem mapExcept_error_of_mem {α β : Type} {f : α → Except LoadError β}
    {l : List α} {a : α} (ha : a ∈ l) {e : LoadError}
    (hf : f a = .error e) :
    ∃ a2 ∈ l, ∃ e2, f a2 = .error e2 ∧ mapExcept f l = .error e2 := by
  induction l with
  | nil => nomatch ha
  | cons x rest ih =>
    cases hx : f x with
    | error ex =>
      refine ⟨x, by simp, ex, hx, ?_⟩
      unfold mapExcept
      rw [hx]
    | ok b =>
      rcases List.mem_cons.mp ha with rfl | ha2
      · rw [hx] at hf; cases hf
      · obtain ⟨a2, ha2m, e2, hf2, hm⟩ := ih ha2
        refine ⟨a2, by simp [ha2m], e2, hf2, ?_⟩
        unfold mapExcept
        rw [hx, hm]

theorem superInterfaceName_ok_bare {fileName : String} {entry : HeritageEntry}
    {name : String} (h : superInterfaceName fileName entry = .ok name) :
    isBareInterfaceHeritage entry = true := by
  obtain ⟨k, x, lc⟩ := entry
  cases k <;> cases x <;> first | rfl | cases h

theorem superInterfaceName_error_inv {fileName : String}
    {entry : HeritageEntry} {e : LoadError}
    (h : superInterfaceName fileName entry = .error e) :
    isBareInterfaceHeritage entry = false ∧
      e = .unsupportedSuperInterface fileName entry.loc := by
  obtain ⟨k, x, lc⟩ := entry
  cases k <;> cases x <;> cases h <;> exact ⟨rfl, rfl⟩

theorem superInterfaceName_not_bare {fileName : String} {entry : HeritageEntry}
    (h : isBareInterfaceHeritage entry = false) :
    superInterfaceName fileName entry =
      .error (.unsupportedSuperInterface fileName entry.loc) := by
  obtain ⟨k, x, lc⟩ := entry
  cases k <;> cases x <;> first | rfl | cases h

/-- C4: getSuperClassName returns none when there is no superclass and the
identifier name when the heritage expression is a bare identifier, and for
every other expression shape, member expressions included, it fails with an
error carrying the file name and the clause location; likewise
getSuperInterfaceNames fails with such an error whenever an extends entry
is not a bare identifier heritage, and succeeds only when every entry is
one, so a non-identifier heritage clause is never silently skipped. -/
theorem heritage_non_identifier_is_error :
    (∀ d fileName, d.superClass = none →
      getSuperClassName d fileName = .ok none) ∧
    (∀ d fileName name loc,
      d.superClass = some ⟨.identifier name, loc⟩ →
      getSuperClassName d fileName = .ok (some name)) ∧
    (∀ d fileName e loc,
      d.superClass = some ⟨e, loc⟩ →
      (∀ name, e ≠ .identifier name) →
      ∃ err, getSuperClassName d fileName = .error err ∧
        errorContext err = some (fileName, loc)) ∧
    (∀ d fileName names,
      getSuperInterfaceNames d fileName = .ok names →
      ∀ entry ∈ d.extendsList.getD [], isBareInterfaceHeritage entry = true) ∧
    (∀ d fileName entry,
      entry ∈ d.extendsList.getD [] →
      isBareInterfaceHeritage entry = false →
      ∃ err entry2, entry2 ∈ d.extendsList.getD [] ∧
        isBareInterfaceHeritage entry2 = false ∧
        getSuperInterfaceNames d fileName = .error err ∧
        errorContext err = some (fileName, entry2.loc)) := by
  refine ⟨?_, ?_, ?_, ?_, ?_⟩
  · intro d fileName h
    unfold getSuperClassName
    rw [h]
  · intro d fileName name loc h
    unfold getSuperClassName
    rw [h]
  · intro d fileName e loc h hne
    unfold getSuperClassName
    rw [h]
    cases e with
    | identifier n => exact absurd rfl (hne n)
    | memberExpression ob pr => cases ob <;> cases pr <;> exact ⟨_, rfl, rfl⟩
    | otherExpression => exact ⟨_, rfl, rfl⟩
  · intro d fileName names h entry hmem
    obtain ⟨name, hname⟩ := mapExcept_ok_mem h entry hmem
    exact superInterfaceName_ok_bare hname
  · intro d fileName entry hmem hbare
    obtain ⟨a2, ha2, e2, hf2, hm⟩ :=
      mapExcept_error_of_mem hmem (superInterfaceName_not_bare hbare)
    obtain ⟨hb2, he2⟩ := superInterfaceName_error_inv hf2
    refine ⟨e2, a2, ha2, hb2, hm, ?_⟩
    rw [he2]
    rfl

theorem heritage_non_identifier_is_error_witness :
    getSuperClassName directDecl "src/a.ts" = .ok none ∧
    (∃ err, getSuperClassName nsSuperDecl "src/a.ts" = .error err ∧
      errorContext err = some ("src/a.ts", loc0)) ∧
    (∃ err entry2, entry2 ∈ badHeritageIface.extendsList.getD [] ∧
      isBareInterfaceHeritage entry2 = false ∧
      getSuperInterfaceNames badHeritageIface "src/i.ts" = .error err ∧
      errorContext err = some ("src/i.ts", entry2.loc)) := by
  refine ⟨?_, ?_, ?_⟩
  · exact heritage_non_identifier_is_error.1 directDecl "src/a.ts" rfl
  · exact heritage_non_identifier_is_error.2.2.1 nsSuperDecl "src/a.ts"
      (.memberExpression (.identifier "ns") (.identifier "B")) loc0 rfl
      (fun n hh => nomatch hh)
  · exact heritage_non_identifier_is_error.2.2.2.2 badHeritageIface "src/i.ts"
      ⟨.otherHeritage, .identifier "J", loc0⟩ (by decide) rfl

/-- C5: the code has no cycle detection; on two files that wildcard
re-export each other and declare nothing, the fueled resolver runs out of
fuel for every amount of fuel, so the original recursion is unbounded and
no cyclic-hierarchy error is ever produced. -/
theorem cyclic_wildcard_reexports_diverge :
    ∀ fuel,
      loadClassDeclaration cyclicCtx fuel ⟨"X", "src/a.ts"⟩ false =
        .outOfFuel ∧
      loadClassDeclaration cyclicCtx fuel ⟨"X", "src/b.ts"⟩ false =
        .outOfFuel := by
  intro fuel
  induction fuel with
  | zero => exact ⟨rfl, rfl⟩
  | succ fuel ih =>
    constructor
    · have hstep : loadClassDeclaration cyclicCtx (fuel + 1)
          ⟨"X", "src/a.ts"⟩ false =
          tryWildcardExports (loadClassDeclaration cyclicCtx fuel) "X" false
            (.symbolNotFound false "X" "src/a.ts") ["src/b.ts"] := rfl
      rw [hstep]
      unfold tryWildcardExports
      rw [ih.2]
    · have hstep : loadClassDeclaration cyclicCtx (fuel + 1)
          ⟨"X", "src/b.ts"⟩ false =
          tryWildcardExports (loadClassDeclaration cyclicCtx fuel) "X" false
            (.symbolNotFound false "X" "src/b.ts") ["src/a.ts"] := rfl
      rw [hstep]
      unfold tryWildcardExports
      rw [ih.1]

theorem genericFold_eq {params : List TypeParam} {acc : GenericTypes} :
    params.foldl (fun acc param => recInsert acc param.name ⟨param.constraint⟩)
      acc =
      (params.reverse.map
        (fun p => (p.name, GenericEntry.mk p.constraint))) ++ acc := by
  induction params generalizing acc with
  | nil => simp
  | cons p rest ih =>
    rw [List.foldl_cons, ih]
    simp [recInsert]

theorem collectGenericTypes_some {d : ClassOrInterface}
    {params : List TypeParam} (h : typeParametersOf d = some params) :
    collectGenericTypes d =
      params.reverse.map (fun p => (p.name, GenericEntry.mk p.constraint)) := by
  unfold collectGenericTypes
  rw [h]
  show params.foldl
      (fun acc param => recInsert acc param.name (GenericEntry.mk param.constraint)) [] =
    params.reverse.map (fun p => (p.name, GenericEntry.mk p.constraint))
  rw [genericFold_eq, List.append_nil]

theorem recLookup_map_name_nodup :
    ∀ (ps : List TypeParam), (ps.map TypeParam.name).Nodup →
      ∀ p ∈ ps,
        recLookup (ps.map fun q => (q.name, GenericEntry.mk q.constraint))
          p.name = some ⟨p.constraint⟩ := by
  intro ps
  induction ps with
  | nil => intro _ p hp; nomatch hp
  | cons q rest ih =>
    intro hnd p hp
    rw [List.map_cons]
    rcases List.mem_cons.mp hp with rfl | hp2
    · unfold recLookup
      rw [List.find?_cons_of_pos _ (by simp)]
      rfl
    · have hne : q.name ≠ p.name := by
        intro heq
        have hmm : p.name ∈ rest.map TypeParam.name :=
          List.mem_map.mpr ⟨p, hp2, rfl⟩
        exact (List.nodup_cons.mp hnd).1 (heq ▸ hmm)
      unfold recLookup
      rw [List.find?_cons_of_neg _ (by simp [hne])]
      exact ih (List.nodup_cons.mp hnd).2 p hp2

theorem recLookup_map_inv :
    ∀ (ps : List TypeParam) (n : String) (entry : GenericEntry),
      recLookup (ps.map fun q => (q.name, GenericEntry.mk q.constraint)) n =
        some entry →
      ∃ p ∈ ps, p.name = n ∧ entry = ⟨p.constraint⟩ := by
  intro ps
  induction ps with
  | nil => intro n entry h; cases h
  | cons q rest ih =>
    intro n entry h
    rw [List.map_cons] at h
    unfold recLookup at h
    by_cases hq : q.name = n
    · rw [List.find?_cons_of_pos _ (by simp [hq])] at h
      injection h with h2
      exact ⟨q, by simp, hq, h2.symm⟩
    · rw [List.find?_cons_of_neg _ (by simp [hq])] at h
      obtain ⟨p, hp, hn, he⟩ := ih n entry h
      exact ⟨p, by simp [hp], hn, he⟩

/-- C6: collectGenericTypes yields the empty mapping when there is no
type-parameter list, and otherwise a mapping with exactly one entry per
declared type parameter, keyed by the parameter name; the entry constraint
is absent exactly when that parameter declares no extends bound. -/
theorem collectGenericTypes_spec :
    (∀ d, typeParametersOf d = none → collectGenericTypes d = []) ∧
    (∀ d params, typeParametersOf d = some params →
      (params.map TypeParam.name).Nodup →
      ((collectGenericTypes d).length = params.length ∧
       (∀ p ∈ params,
         recLookup (collectGenericTypes d) p.name = some ⟨p.constraint⟩) ∧
       (∀ p ∈ params, ∃ entry,
         recLookup (collectGenericTypes d) p.name = some entry ∧
         (entry.type = none ↔ p.constraint = none)) ∧
       (∀ n entry, recLookup (collectGenericTypes d) n = some entry →
         ∃ p ∈ params, p.name = n ∧ entry = ⟨p.constraint⟩))) := by
  constructor
  · intro d h
    unfold collectGenericTypes
    rw [h]
  · intro d params h hnd
    rw [collectGenericTypes_some h]
    have hnd2 : (params.reverse.map TypeParam.name).Nodup := by
      rw [List.map_reverse]
      exact List.nodup_reverse.mpr hnd
    refine ⟨by simp, ?_, ?_, ?_⟩
    · intro p hp
      exact recLookup_map_name_nodup params.reverse hnd2 p
        (List.mem_reverse.mpr hp)
    · intro p hp
      exact ⟨⟨p.constraint⟩,
        recLookup_map_name_nodup params.reverse hnd2 p
          (List.mem_reverse.mpr hp), Iff.rfl⟩
    · intro n entry h2
      obtain ⟨p, hp, hn, he⟩ := recLookup_map_inv params.reverse n entry h2
      exact ⟨p, List.mem_reverse.mp hp, hn, he⟩

theorem collectGenericTypes_spec_witness :
    (collectGenericTypes (.cls genericDecl)).length = 2 ∧
    recLookup (collectGenericTypes (.cls genericDecl)) "T" =
      some ⟨some ⟨"Foo"⟩⟩ ∧
    recLookup (collectGenericTypes (.cls genericDecl)) "U" = some ⟨none⟩ := by
  have h := collectGenericTypes_spec.2 (.cls genericDecl)
    [⟨"T", some ⟨"Foo"⟩⟩, ⟨"U", none⟩] rfl (by decide)
  exact ⟨h.1, h.2.1 ⟨"T", some ⟨"Foo"⟩⟩ (by simp), h.2.1 ⟨"U", none⟩ (by simp)⟩

/-- C8: a re-export without a source module is recorded by the extractor as
an exportedUnknowns binding from the exported name to the local name, and
the resolution cascade never consults the exportedUnknowns field: its
contents can be replaced arbitrarily without changing any resolution
result, and a name reachable only through such a binding fails with the
not-found error for either considerInterfaces value. -/
theorem exportedUnknowns_recorded_terminal :
    (∀ fileName acc localName exportedName,
      getClassElementsStep fileName acc
        (.exportNamedDeclaration none [⟨localName, exportedName⟩] none) =
        .ok { acc with exportedUnknowns := recInsert acc.exportedUnknowns exportedName localName }) ∧
    (∀ (m : JSRecord String) localName exportedName,
      recLookup (recInsert m exportedName localName) exportedName =
        some localName) ∧
    (∀ load2 classReference ci ast elements u,
      loadFromElements load2 classReference ci ast
        { elements with exportedUnknowns := u } =
        loadFromElements load2 classReference ci ast elements) ∧
    (∀ fuel ci,
      loadClassDeclaration unknownsCtx (fuel + 1) ⟨"B", "src/u.ts"⟩ ci =
        .err (.symbolNotFound ci "B" "src/u.ts")) := by
  refine ⟨?_, ?_, ?_, ?_⟩
  · intro fileName acc localName exportedName
    rfl
  · intro m localName exportedName
    unfold recLookup recInsert
    rw [List.find?_cons_of_pos _ (by simp)]
    rfl
  · intro load2 classReference ci ast elements u
    rcases elements with ⟨e1, e2, e3, e4, e5, e6, e7, e8⟩
    rfl
  · intro fuel ci
    cases ci <;> rfl

/-- C9: only named import specifiers are recorded into importedElements by
the extractor; default and namespace import specifiers are ignored, so a
symbol whose only route to its declaration is such an import fails to
resolve with the not-found error, even though resolving it directly in the
declaring file succeeds. -/
theorem named_imports_only :
    (∀ fileName acc localName source,
      getClassElementsStep fileName acc
        (.importDeclaration [.importDefaultSpecifier localName]
          (.stringLiteral source)) = .ok acc) ∧
    (∀ fileName acc localName source,
      getClassElementsStep fileName acc
        (.importDeclaration [.importNamespaceSpecifier localName]
          (.stringLiteral source)) = .ok acc) ∧
    (∀ fileName acc localName importedName source,
      getClassElementsStep fileName acc
        (.importDeclaration [.importSpecifier localName importedName]
          (.stringLiteral source)) =
        .ok { acc with importedElements := recInsert acc.importedElements localName ⟨importedName, pathJoin (pathDirname fileName) source⟩ }) ∧
    (∀ fuel,
      loadClassDeclaration defaultImportCtx (fuel + 1) ⟨"A", "src/a.ts"⟩
        false = .err (.symbolNotFound false "A" "src/a.ts")) ∧
    (loadClassDeclaration defaultImportCtx 1 ⟨"A", "src/b.ts"⟩ false =
      .ok (.classLoaded "A" "src/b.ts" directDecl directAst false [] none)) := by
  refine ⟨?_, ?_, ?_, ?_, ?_⟩
  · intro fileName acc localName source
    rfl
  · intro fileName acc localName source
    rfl
  · intro fileName acc localName importedName source
    rfl
  · intro fuel
    rfl
  · rfl

/-- C10: the per-target catch while iterating wildcard re-export targets is
unconditional: any error from a target, including a malformed-export
extraction error from extracting the target file itself, is suppressed and iteration
continues, and only the final not-found error of the outer call can
surface. -/
theorem wildcard_catch_unconditional :
    (∀ (load2 : ClassReference → Bool → LoadResult) localName ci
        notFoundError subFile rest e,
      load2 ⟨localName, subFile⟩ ci = .err e →
      tryWildcardExports load2 localName ci notFoundError (subFile :: rest) =
        tryWildcardExports load2 localName ci notFoundError rest) ∧
    (getClassElements "src/bad.ts" malformedAst =
      .error (.malformedExport "src/bad.ts" loc0)) ∧
    (loadClassDeclaration malformedCtx 2 ⟨"X", "src/a.ts"⟩ false =
      .ok malformedCtxSymbol) ∧
    (loadClassDeclaration malformedCtx 2 ⟨"Y", "src/a.ts"⟩ false =
      .err (.symbolNotFound false "Y" "src/a.ts")) := by
  refine ⟨?_, rfl, by decide, by decide⟩
  intro load2 localName ci notFoundError subFile rest e h
  exact tryWildcardExports_err_head h

theorem wildcard_catch_unconditional_witness :
    tryWildcardExports (loadClassDeclaration malformedCtx 1) "X" false
      (.symbolNotFound false "X" "src/a.ts") ["src/bad.ts", "src/good.ts"] =
    tryWildcardExports (loadClassDeclaration malformedCtx 1) "X" false
      (.symbolNotFound false "X" "src/a.ts") ["src/good.ts"] :=
  wildcard_catch_unconditional.1 (loadClassDeclaration malformedCtx 1) "X"
    false (.symbolNotFound false "X" "src/a.ts") "src/bad.ts" ["src/good.ts"]
    (.malformedExport "src/bad.ts" loc0) (by decide)

end Componentsjs
